import Mathlib

/-!
Verification development for the PNW grid dashboard's data layer
(`src/data/api.ts`, `src/data/simulation.ts`, `src/data/useGridData.ts`).

Shallow-embedding conventions:
* JS `number`s that hold exact integers are modelled by `ℤ`/`ℕ`; fractional
  arithmetic (signal shaping, averaging) by `ℚ`.
* `Math.exp` is the only transcendental primitive; it is abstracted as an
  explicit parameter `rexp : ℚ → ℚ` of the simulation functions, so every
  theorem quantifies over it (holding in particular for the real exponential).
* `Date` instants are epoch milliseconds (`ℤ`); the browser's local time zone
  is modelled as UTC.  `toISOString` is injective on instants, so timestamp
  strings of simulated points are represented by their instants.
* Timestamp strings produced by the live client (`period + ':00:00Z'`,
  `point_time`) are modelled by an arbitrary linearly ordered type `τ`:
  `localeCompare` on those ASCII strings is their lexicographic order, and
  appending the constant `':00:00Z'` suffix preserves order and equality.
* The stateful closure returned by `seededRandom` is modelled by indexing its
  calls in evaluation order (`rngAt seed k` = value of the k-th call).
* Fallible `fetch` chains are modelled with `Except`; upstream HTTP responses
  appear as explicit arguments holding either the parsed rows or the failure.
-/

namespace PGE

/-- JS `Math.round q` equals `⌊q + 1/2⌋` (halves round toward `+∞`). -/
def jround (q : ℚ) : ℤ := ⌊q + 1 / 2⌋

/-- Milliseconds per day. -/
def msPerDay : ℤ := 86400000

/-- Civil date `(year, month 1..12, day 1..31)` from days since 1970-01-01,
proleptic Gregorian (the standard days-to-civil algorithm). -/
def civilFromDays (z₀ : ℤ) : ℤ × ℤ × ℤ :=
  let z := z₀ + 719468
  let era := z.fdiv 146097
  let doe := z - era * 146097
  let yoe := (doe - doe.fdiv 1460 + doe.fdiv 36524 - doe.fdiv 146096).fdiv 365
  let doy := doe - (365 * yoe + yoe.fdiv 4 - yoe.fdiv 100)
  let mp := (5 * doy + 2).fdiv 153
  let d := doy - (153 * mp + 2).fdiv 5 + 1
  let m := mp + (if mp < 10 then 3 else -9)
  (yoe + era * 400 + (if m ≤ 2 then 1 else 0), m, d)

/-- JS `Date.prototype.getDate` (day of month, 1..31); local time ≡ UTC. -/
def getDate (ms : ℤ) : ℤ := (civilFromDays (ms.fdiv msPerDay)).2.2

/-- JS `Date.prototype.getMonth` (0-based month); local time ≡ UTC. -/
def getMonth (ms : ℤ) : ℤ := (civilFromDays (ms.fdiv msPerDay)).2.1 - 1

/-- JS `Date.prototype.getHours`; local time ≡ UTC. -/
def getHours (ms : ℤ) : ℤ := (ms.emod msPerDay).fdiv 3600000

/-- JS `Date.prototype.getMinutes`; local time ≡ UTC. -/
def getMinutes (ms : ℤ) : ℤ := (ms.emod 3600000).fdiv 60000

/-- The fractional hour `t.getHours() + t.getMinutes() / 60` used by every
simulation generator. -/
def hourQ (ms : ℤ) : ℚ := (getHours ms : ℚ) + (getMinutes ms : ℚ) / 60

/-! ## Data model (`simulation.ts` interfaces)

Each point type is parametric in the timestamp type `τ`
(`ℤ` epoch-ms for the simulation engine, an ordered string model for live). -/

structure CarbonPoint (τ : Type) where
  timestamp : τ
  value : ℤ
  deriving DecidableEq

structure GenerationPoint (τ : Type) where
  timestamp : τ
  hydro : ℤ
  wind : ℤ
  gas : ℤ
  solar : ℤ
  other : ℤ
  total : ℤ
  deriving DecidableEq

structure DemandPoint (τ : Type) where
  timestamp : τ
  demand : ℤ
  forecast : ℤ
  deriving DecidableEq

structure InterchangeFlow where
  region : String
  value : ℤ
  deriving DecidableEq

structure InterchangePoint (τ : Type) where
  timestamp : τ
  netExport : ℤ
  flows : List InterchangeFlow
  deriving DecidableEq

structure LatestRecords (τ : Type) where
  carbon : CarbonPoint τ
  generation : GenerationPoint τ
  demand : DemandPoint τ
  interchange : InterchangePoint τ
  deriving DecidableEq

structure SeriesRecords (τ : Type) where
  carbon : List (CarbonPoint τ)
  generation : List (GenerationPoint τ)
  demand : List (DemandPoint τ)
  interchange : List (InterchangePoint τ)
  deriving DecidableEq

structure GridSnapshot (τ : Type) where
  latest : LatestRecords τ
  timeSeries : SeriesRecords τ
  deriving DecidableEq

/-! ## Simulation engine (`simulation.ts`) -/

/-- `TOTAL_POINTS = 288` (24h at 5-minute intervals). -/
def TOTAL_POINTS : ℕ := 288

/-- One step of the Park–Miller LCG inside `seededRandom`
(`s = (s * 16807) % 2147483647`; the state stays an exact nonnegative
integer in JS doubles). -/
def lcgNext (s : ℕ) : ℕ := (s * 16807) % 2147483647

/-- `n`-fold iteration of `lcgNext`. -/
def lcgIter : ℕ → ℕ → ℕ
  | 0, s => s
  | n + 1, s => lcgIter n (lcgNext s)

/-- Value returned by the `k`-th call (0-based) to the closure produced by
`seededRandom seed`: `(s - 1) / 2147483646` after `k+1` state updates. -/
def rngAt (seed : ℕ) (k : ℕ) : ℚ := ((lcgIter (k + 1) seed : ℚ) - 1) / 2147483646

/-- `hourFactor(hour, peak, spread)` with `Math.exp` abstracted as `rexp`.
`dist` is circular distance on the 24-hour clock. -/
def hourFactor (rexp : ℚ → ℚ) (hour peak spread : ℚ) : ℚ :=
  let dist := min |hour - peak| (24 - |hour - peak|)
  rexp (-(dist * dist) / (2 * spread * spread))

/-- `smoothNoise` at index `i`: the mean of `values[max 0 (i-w) .. min (len-1) (i+w)]`.
`ℕ` subtraction is truncated, which matches the `Math.max(0, i - window)` lower
clamp; the callers only use indices `i < values.length`. -/
def smoothAt (values : List ℤ) (w i : ℕ) : ℚ :=
  let lo := i - w
  let hi := min (values.length - 1) (i + w)
  let count := hi + 1 - lo
  (((List.range count).map (fun j => values.getD (lo + j) 0)).sum : ℚ) / (count : ℚ)

/-- Timestamp (epoch ms) of slot `i`:
`now.getTime() - (TOTAL_POINTS - 1 - i) * 5 * 60_000`. -/
def tsAt (now : ℤ) (i : ℕ) : ℤ := now - (287 - (i : ℤ)) * 300000

/-- Seed of `generateCarbonSignal`: `getDate * 1000 + getMonth + 1`
(nonnegative, so the `ℕ` cast is exact). -/
def carbonSeed (now : ℤ) : ℕ := (getDate now * 1000 + getMonth now + 1).toNat

/-- Raw (pre-smoothing) carbon value at slot `i`; one rng call per slot. -/
def carbonRawAt (rexp : ℚ → ℚ) (now : ℤ) (i : ℕ) : ℤ :=
  let hour := hourQ (tsAt now i)
  let nightClean := 1 - hourFactor rexp hour 3 4
  let afternoonDirty := hourFactor rexp hour 16 3
  let morningBump := hourFactor rexp hour 8 2 * (3 / 10)
  let signal := 15 + nightClean * 25 + afternoonDirty * 40 + morningBump * 15
      + (rngAt (carbonSeed now) i - 1 / 2) * 12
  jround (max 0 (min 100 signal))

/-- `generateCarbonSignal`: clamp-and-round per slot, then replace each value
by the rounded ±2-slot moving average. -/
def generateCarbonSignal (rexp : ℚ → ℚ) (now : ℤ) : List (CarbonPoint ℤ) :=
  let values := (List.range TOTAL_POINTS).map (carbonRawAt rexp now)
  (List.range TOTAL_POINTS).map (fun i => ⟨tsAt now i, jround (smoothAt values 2 i)⟩)

/-- Seed of `generateGenerationMix`: `getDate * 2000 + getMonth + 1`. -/
def generationSeed (now : ℤ) : ℕ := (getDate now * 2000 + getMonth now + 1).toNat

/-- One `GenerationPoint` of the simulation; five rng calls per slot, in
source order hydro, wind, gas, solar, other. -/
def generationPointAt (rexp : ℚ → ℚ) (now : ℤ) (i : ℕ) : GenerationPoint ℤ :=
  let hour := hourQ (tsAt now i)
  let s := generationSeed now
  let hydro := jround (max 0 (3800 + hourFactor rexp hour 15 5 * 600 + (rngAt s (5 * i) - 1 / 2) * 200))
  let wind := jround (max 0 (700 + (1 - hourFactor rexp hour 14 5) * 500 + (rngAt s (5 * i + 1) - 1 / 2) * 250))
  let gas := jround (max 0 (200 + hourFactor rexp hour 17 3 * 600 + (rngAt s (5 * i + 2) - 1 / 2) * 100))
  let solar := jround (max 0 (hourFactor rexp hour 12 3 * 250 + (rngAt s (5 * i + 3) - 1 / 2) * 50))
  let other := jround (max 0 (200 + (rngAt s (5 * i + 4) - 1 / 2) * 50))
  ⟨tsAt now i, hydro, wind, gas, solar, other, hydro + wind + gas + solar + other⟩

/-- `generateGenerationMix`. -/
def generateGenerationMix (rexp : ℚ → ℚ) (now : ℤ) : List (GenerationPoint ℤ) :=
  (List.range TOTAL_POINTS).map (generationPointAt rexp now)

/-- Seed of `generateDemandData`: `getDate * 3000 + getMonth + 1`. -/
def demandSeed (now : ℤ) : ℕ := (getDate now * 3000 + getMonth now + 1).toNat

/-- Raw (pre-smoothing) demand and forecast at slot `i`; two rng calls per
slot, demand first. -/
def demandRawAt (rexp : ℚ → ℚ) (now : ℤ) (i : ℕ) : ℤ × ℤ :=
  let hour := hourQ (tsAt now i)
  let s := demandSeed now
  let overnightLow := hourFactor rexp hour 4 3
  let dayPlateau := hourFactor rexp hour 12 5
  let eveningPeak := hourFactor rexp hour 18 2
  (jround (5500 - overnightLow * 700 + dayPlateau * 300 + eveningPeak * 500
      + (rngAt s (2 * i) - 1 / 2) * 150),
   jround (5500 - overnightLow * 650 + dayPlateau * 280 + eveningPeak * 480
      + (rngAt s (2 * i + 1) - 1 / 2) * 80))

/-- `generateDemandData`: raw rounded values, then each field replaced by its
own rounded moving average (window 3 for demand, 4 for forecast). -/
def generateDemandData (rexp : ℚ → ℚ) (now : ℤ) : List (DemandPoint ℤ) :=
  let demands := (List.range TOTAL_POINTS).map (fun i => (demandRawAt rexp now i).1)
  let forecasts := (List.range TOTAL_POINTS).map (fun i => (demandRawAt rexp now i).2)
  (List.range TOTAL_POINTS).map (fun i =>
    ⟨tsAt now i, jround (smoothAt demands 3 i), jround (smoothAt forecasts 4 i)⟩)

/-- Seed of `generateInterchangeData`: `getDate * 4000 + getMonth + 1`. -/
def interchangeSeed (now : ℤ) : ℕ := (getDate now * 4000 + getMonth now + 1).toNat

/-- The fixed neighbor list of the simulated interchange. -/
def interchangeRegions : List String := ["CAISO", "PACE", "PACW", "PSEI", "CHPD"]

/-- One simulated `InterchangePoint`; eleven rng calls per slot: one for
`netExport`, then two per region in `regions.map` order. -/
def interchangePointAt (rexp : ℚ → ℚ) (now : ℤ) (i : ℕ) : InterchangePoint ℤ :=
  let hour := hourQ (tsAt now i)
  let s := interchangeSeed now
  let nightSurplus := 1 - hourFactor rexp hour 15 5
  let netExport := jround (800 + nightSurplus * 800 + (rngAt s (11 * i) - 1 / 2) * 300)
  let flows := (List.range interchangeRegions.length).map (fun j =>
    { region := interchangeRegions.getD j ""
      value := jround ((netExport : ℚ) / (interchangeRegions.length : ℚ)
          * (1 / 2 + rngAt s (11 * i + 1 + 2 * j))
        + (rngAt s (11 * i + 2 + 2 * j) - 1 / 2) * 100) : InterchangeFlow })
  ⟨tsAt now i, netExport, flows⟩

/-- `generateInterchangeData`. -/
def generateInterchangeData (rexp : ℚ → ℚ) (now : ℤ) : List (InterchangePoint ℤ) :=
  (List.range TOTAL_POINTS).map (interchangePointAt rexp now)

/-- `getGridSnapshot`: the four generated series plus `latest` taken as
`arr[arr.length - 1]` of each.  The series always have 288 elements, so the
`getLastD` defaults are never used. -/
def getGridSnapshot (rexp : ℚ → ℚ) (now : ℤ) : GridSnapshot ℤ :=
  let carbon := generateCarbonSignal rexp now
  let generation := generateGenerationMix rexp now
  let demand := generateDemandData rexp now
  let interchange := generateInterchangeData rexp now
  { latest :=
      { carbon := carbon.getLastD ⟨0, 0⟩
        generation := generation.getLastD ⟨0, 0, 0, 0, 0, 0, 0⟩
        demand := demand.getLastD ⟨0, 0, 0⟩
        interchange := interchange.getLastD ⟨0, 0, []⟩ }
    timeSeries := ⟨carbon, generation, demand, interchange⟩ }

/-! ## Live data client (`api.ts`) -/

/-- One row of the WattTime `signal-index` response (the fields consumed). -/
structure WTRow (τ : Type) where
  point_time : τ
  value : ℚ
  deriving DecidableEq

/-- `fetchCarbonSignal`'s normalization: each row maps to a `CarbonPoint`
with the value rounded; the rows are used in response order. -/
def fetchCarbonSignal {τ : Type} (rows : List (WTRow τ)) : List (CarbonPoint τ) :=
  rows.map (fun r => ⟨r.point_time, jround r.value⟩)

/-- One EIA tabular row.  `value` holds the result of `parseInt(row.value)`
(`none` models `NaN` from an unparseable string); `rtype` models the row's
`type` field (`type` is reserved in Lean). -/
structure EIARow (τ : Type) where
  period : τ
  value : Option ℤ
  fueltype : String := ""
  rtype : String := ""
  toba : String := ""
  deriving DecidableEq

/-- `parseInt(row.value) || 0`: `NaN` (and `0` itself) yield `0`. -/
def parseVal {τ : Type} (r : EIARow τ) : ℤ := r.value.getD 0

/-- The grouping key `row.period + ':00:00Z'`.  Appending the constant suffix
preserves equality and lexicographic order of the period strings, so the model
keys groups by the period itself. -/
def tsOf {τ : Type} (r : EIARow τ) : τ := r.period

/-- Insertion-ordered association-list update modelling the `Map` idiom
`if (!m.has(k)) m.set(k, init); <mutate m.get(k) by f>`: an absent key is
appended (JS `Map` preserves insertion order), a present key is updated in
place. -/
def alUpdate {κ β : Type} [DecidableEq κ] (k : κ) (init : β) (f : β → β) :
    List (κ × β) → List (κ × β)
  | [] => [(k, f init)]
  | (k₀, v) :: rest =>
      if k₀ = k then (k₀, f v) :: rest else (k₀, v) :: alUpdate k init f rest

/-- The keys of an association list, in insertion order. -/
def alKeys {κ β : Type} (m : List (κ × β)) : List κ := m.map Prod.fst

/-- The fresh `GenerationPoint` inserted for an unseen period. -/
def zeroGen {τ : Type} (ts : τ) : GenerationPoint τ := ⟨ts, 0, 0, 0, 0, 0, 0⟩

/-- Routing one generation row through the `fuelMap` lookup:
`WAT`/`WND`/`NG`/`SUN` assign the mapped field, anything else accumulates
into `other`. -/
def genApply {τ : Type} (fueltype : String) (val : ℤ) (p : GenerationPoint τ) :
    GenerationPoint τ :=
  if fueltype = "WAT" then { p with hydro := val }
  else if fueltype = "WND" then { p with wind := val }
  else if fueltype = "NG" then { p with gas := val }
  else if fueltype = "SUN" then { p with solar := val }
  else { p with other := p.other + val }

/-- One row step of `fetchGeneration`'s grouping loop
(`val = Math.max(0, parseInt(row.value) || 0)`). -/
def genStep {τ : Type} [DecidableEq τ] (m : List (τ × GenerationPoint τ)) (r : EIARow τ) :
    List (τ × GenerationPoint τ) :=
  alUpdate (tsOf r) (zeroGen (tsOf r)) (genApply r.fueltype (max 0 (parseVal r))) m

/-- `fetchGeneration`'s pivot: group rows by period, recompute `total` from the
components, sort ascending by timestamp. -/
def fetchGeneration {τ : Type} [LinearOrder τ] (rows : List (EIARow τ)) :
    List (GenerationPoint τ) :=
  let m := rows.foldl genStep []
  let points := m.map (fun kv =>
    { kv.2 with total := kv.2.hydro + kv.2.wind + kv.2.gas + kv.2.solar + kv.2.other })
  points.insertionSort (fun a b => a.timestamp ≤ b.timestamp)

/-- The fresh `DemandPoint` inserted for an unseen period. -/
def zeroDemand {τ : Type} (ts : τ) : DemandPoint τ := ⟨ts, 0, 0⟩

/-- Routing one demand row by its `type` facet: `D` sets demand, `DF` sets
forecast, other categories leave the (already created) entry unchanged. -/
def demApply {τ : Type} (rtype : String) (val : ℤ) (p : DemandPoint τ) : DemandPoint τ :=
  if rtype = "D" then { p with demand := val }
  else if rtype = "DF" then { p with forecast := val }
  else p

/-- One row step of `fetchDemand`'s grouping loop (value keeps its sign). -/
def demStep {τ : Type} [DecidableEq τ] (m : List (τ × DemandPoint τ)) (r : EIARow τ) :
    List (τ × DemandPoint τ) :=
  alUpdate (tsOf r) (zeroDemand (tsOf r)) (demApply r.rtype (parseVal r)) m

/-- `fetchDemand`'s pivot. -/
def fetchDemand {τ : Type} [LinearOrder τ] (rows : List (EIARow τ)) : List (DemandPoint τ) :=
  ((rows.foldl demStep []).map (fun kv => kv.2)).insertionSort
    (fun a b => a.timestamp ≤ b.timestamp)

/-- Per-period accumulator of `fetchInterchange`: the running signed total and
the per-neighbor sums keyed by `toba` (insertion-ordered). -/
structure IEntry where
  netExport : ℤ
  flows : List (String × ℤ)
  deriving DecidableEq

/-- One row step of `fetchInterchange`'s grouping loop: add the signed value to
the row's neighbor bucket and to the running `netExport`. -/
def iStep {τ : Type} [DecidableEq τ] (m : List (τ × IEntry)) (r : EIARow τ) :
    List (τ × IEntry) :=
  alUpdate (tsOf r) ⟨0, []⟩
    (fun e => ⟨e.netExport + parseVal r, alUpdate r.toba 0 (· + parseVal r) e.flows⟩) m

/-- Finishing one interchange group: keep `netExport` whole, sort the neighbor
flows by descending absolute value and keep the top 8. -/
def toInterchangePoint {τ : Type} (kv : τ × IEntry) : InterchangePoint τ :=
  { timestamp := kv.1
    netExport := kv.2.netExport
    flows := ((kv.2.flows.map (fun rv => InterchangeFlow.mk rv.1 rv.2)).insertionSort
        (fun a b => |b.value| ≤ |a.value|)).take 8 }

/-- `fetchInterchange`'s pivot. -/
def fetchInterchange {τ : Type} [LinearOrder τ] (rows : List (EIARow τ)) :
    List (InterchangePoint τ) :=
  ((rows.foldl iStep []).map toInterchangePoint).insertionSort
    (fun a b => a.timestamp ≤ b.timestamp)

/-- The combination step of `fetchLiveData` once the four sub-fetches have
resolved: pad a ≤1-point carbon series across the generation timestamps
(`carbon[0]?.value ?? 50`), and take `latest` as `arr[arr.length - 1] ?? fallback`.
`nowTs` models `new Date().toISOString()` and `emptyTs` the literal `''` used in
the zero-value fallbacks. -/
def assembleSnapshot {τ : Type} (nowTs emptyTs : τ) (carbon : List (CarbonPoint τ))
    (generation : List (GenerationPoint τ)) (demand : List (DemandPoint τ))
    (interchange : List (InterchangePoint τ)) : GridSnapshot τ :=
  let carbonSeries := if 1 < carbon.length then carbon
    else generation.map (fun g => ⟨g.timestamp, (carbon.head?.map (fun c => c.value)).getD 50⟩)
  { latest :=
      { carbon := carbonSeries.getLastD ⟨nowTs, 50⟩
        generation := generation.getLastD (zeroGen emptyTs)
        demand := demand.getLastD (zeroDemand emptyTs)
        interchange := interchange.getLastD ⟨emptyTs, 0, []⟩ }
    timeSeries := ⟨carbonSeries, generation, demand, interchange⟩ }

/-- `fetchLiveData`: `Promise.all` over the four sub-fetches, failing the whole
assembly if any sub-fetch fails (the model surfaces the first listed failure;
which rejection's message wins under `Promise.all` is timing-dependent and
irrelevant to the claims), then the combination step. -/
def fetchLiveDataE {τ : Type} [LinearOrder τ] (nowTs emptyTs : τ)
    (cr : Except String (List (WTRow τ))) (gr dr ir : Except String (List (EIARow τ))) :
    Except String (GridSnapshot τ) := do
  let crows ← cr
  let grows ← gr
  let drows ← dr
  let irows ← ir
  pure (assembleSnapshot nowTs emptyTs (fetchCarbonSignal crows) (fetchGeneration grows)
    (fetchDemand drows) (fetchInterchange irows))

/-- The sum of the parsed values of all rows whose grouping key is `ts` —
"the sum of all raw per-neighbor values for that timestamp". -/
def sumAt {τ : Type} [DecidableEq τ] (rows : List (EIARow τ)) (ts : τ) : ℤ :=
  ((rows.filter (fun r => tsOf r = ts)).map parseVal).sum

/-- Invariant of `fetchGeneration`'s grouping map: distinct keys, each point
carrying its key as timestamp, and all five components nonnegative. -/
def GenInv {τ : Type} (m : List (τ × GenerationPoint τ)) : Prop :=
  (alKeys m).Nodup ∧ ∀ kv ∈ m, kv.2.timestamp = kv.1 ∧
    (0 ≤ kv.2.hydro ∧ 0 ≤ kv.2.wind ∧ 0 ≤ kv.2.gas ∧ 0 ≤ kv.2.solar ∧ 0 ≤ kv.2.other)

/-- Invariant of `fetchDemand`'s grouping map. -/
def DemInv {τ : Type} (m : List (τ × DemandPoint τ)) : Prop :=
  (alKeys m).Nodup ∧ ∀ kv ∈ m, kv.2.timestamp = kv.1

/-- Invariant of `fetchInterchange`'s grouping loop: distinct keys, every
processed row's key present, and each group's `netExport` equal to the sum of
all processed raw values for that key. -/
def IInv {τ : Type} [DecidableEq τ] (m : List (τ × IEntry)) (pref : List (EIARow τ)) : Prop :=
  (alKeys m).Nodup ∧ (∀ r ∈ pref, tsOf r ∈ alKeys m) ∧
    ∀ kv ∈ m, kv.2.netExport = sumAt pref kv.1

/-! ## WattTime token cache (`getWattTimeToken`) -/

/-- The module-level mutable token state (`wattTimeToken`, `tokenExpiry`).
Token strings are modelled by `ℤ` identifiers. -/
structure TokenCache where
  wattTimeToken : Option ℤ := none
  tokenExpiry : ℤ := 0
  deriving DecidableEq

/-- Result of one `getWattTimeToken` call: the returned token, the token state
afterwards, and whether a `/login` request was issued. -/
structure TokenOutcome where
  token : ℤ
  cache : TokenCache
  didLogin : Bool
  deriving DecidableEq

/-- `getWattTimeToken`.  `nowMs` is `Date.now()`; `login` is the outcome of the
`/login` request (error = non-2xx status), consulted only on a cache miss.
On a fresh login the expiry is set to `Date.now() + 25 * 60_000`. -/
def getWattTimeToken (cache : TokenCache) (nowMs : ℤ) (login : Except ℤ ℤ) :
    Except ℤ TokenOutcome :=
  if h : cache.wattTimeToken.isSome ∧ nowMs < cache.tokenExpiry then
    .ok ⟨cache.wattTimeToken.get h.1, cache, false⟩
  else
    match login with
    | .error status => .error status
    | .ok tk => .ok ⟨tk, { wattTimeToken := some tk, tokenExpiry := nowMs + 25 * 60000 }, true⟩

/-! ## Refresh controller (`useGridData.ts`, live mode) -/

/-- The controller's state: held snapshot, `lastUpdated`, liveness flag, error
message, and the `fetching` ref guarding concurrent live fetches. -/
structure ControllerState (σ : Type) where
  data : Option σ := none
  lastUpdated : ℤ := 0
  isLive : Bool := true
  error : Option String := none
  fetching : Bool := false
  deriving DecidableEq

/-- Effect of the `try / catch / finally` once the awaited `fetchLiveData`
settles at instant `t`: success replaces the snapshot, records `t`, marks live
and clears the error; failure records the message and liveness only.  Both
paths clear `fetching`. -/
def settleLive {σ : Type} (st : ControllerState σ) (outcome : Except String σ) (t : ℤ) :
    ControllerState σ :=
  match outcome with
  | .ok snap =>
      { data := some snap, lastUpdated := t, isLive := true, error := none, fetching := false }
  | .error msg => { st with error := some msg, isLive := false, fetching := false }

/-- The guard at the top of `refresh` in live mode: a tick while `fetching` is
set returns unchanged (`false` = no fetch started); otherwise the flag is set
and a fetch starts. -/
def tickLive {σ : Type} (st : ControllerState σ) : ControllerState σ × Bool :=
  if st.fetching then (st, false) else ({ st with fetching := true }, true)

/-- Events of the live-mode controller: a timer tick, or the settling of the
pending `fetchLiveData` call. -/
inductive LiveEvent (σ : Type) where
  | tick
  | settle (outcome : Except String σ) (t : ℤ)

/-- Instrumented small-step semantics of the live controller.  The second
component counts started-but-unsettled `fetchLiveData` calls; a settle event
with nothing pending is impossible at runtime and is a no-op here. -/
def liveStep {σ : Type} (s : ControllerState σ × ℕ) (e : LiveEvent σ) :
    ControllerState σ × ℕ :=
  match e with
  | .tick =>
      let r := tickLive s.1
      (r.1, if r.2 then s.2 + 1 else s.2)
  | .settle outcome t =>
      match s.2 with
      | 0 => s
      | n + 1 => (settleLive s.1 outcome t, n)

/-- The controller's initial state (`data = null`, not fetching). -/
def initController {σ : Type} : ControllerState σ := {}

/-- Run the live controller over a list of events from the initial state. -/
def runLive {σ : Type} (events : List (LiveEvent σ)) : ControllerState σ × ℕ :=
  events.foldl liveStep (initController, 0)

/-! ## Basic lemmas about rounding, slots and the generated series -/

theorem le_jround {a : ℤ} {q : ℚ} (h : (a : ℚ) ≤ q) : a ≤ jround q := by
  unfold jround
  rw [Int.le_floor]
  linarith

theorem jround_le {q : ℚ} {b : ℤ} (h : q ≤ (b : ℚ)) : jround q ≤ b := by
  unfold jround
  have : ⌊q + 1 / 2⌋ < b + 1 := by
    rw [Int.floor_lt]
    push_cast
    linarith
  omega

theorem tsAt_lt {now : ℤ} {i j : ℕ} (h : i < j) : tsAt now i < tsAt now j := by
  simp only [tsAt]
  omega

theorem tsAt_succ (now : ℤ) (i : ℕ) : tsAt now (i + 1) = tsAt now i + 300000 := by
  simp only [tsAt]
  omega

theorem tsAt_last (now : ℤ) : tsAt now 287 = now := by
  simp [tsAt]

theorem pairwise_lt_map_tsAt (now : ℤ) :
    ((List.range TOTAL_POINTS).map (tsAt now)).Pairwise (· < ·) := by
  refine List.pairwise_map.mpr ?_
  exact (List.pairwise_lt_range TOTAL_POINTS).imp (fun h => tsAt_lt h)

theorem length_generateCarbonSignal (rexp : ℚ → ℚ) (now : ℤ) :
    (generateCarbonSignal rexp now).length = TOTAL_POINTS := by
  simp [generateCarbonSignal]

theorem length_generateGenerationMix (rexp : ℚ → ℚ) (now : ℤ) :
    (generateGenerationMix rexp now).length = TOTAL_POINTS := by
  simp [generateGenerationMix]

theorem length_generateDemandData (rexp : ℚ → ℚ) (now : ℤ) :
    (generateDemandData rexp now).length = TOTAL_POINTS := by
  simp [generateDemandData]

theorem length_generateInterchangeData (rexp : ℚ → ℚ) (now : ℤ) :
    (generateInterchangeData rexp now).length = TOTAL_POINTS := by
  simp [generateInterchangeData]

theorem map_ts_generateCarbonSignal (rexp : ℚ → ℚ) (now : ℤ) :
    (generateCarbonSignal rexp now).map (fun p => p.timestamp)
      = (List.range TOTAL_POINTS).map (tsAt now) := by
  simp [generateCarbonSignal, List.map_map, Function.comp]

theorem map_ts_generateGenerationMix (rexp : ℚ → ℚ) (now : ℤ) :
    (generateGenerationMix rexp now).map (fun p => p.timestamp)
      = (List.range TOTAL_POINTS).map (tsAt now) := by
  simp [generateGenerationMix, generationPointAt, List.map_map, Function.comp]

theorem map_ts_generateDemandData (rexp : ℚ → ℚ) (now : ℤ) :
    (generateDemandData rexp now).map (fun p => p.timestamp)
      = (List.range TOTAL_POINTS).map (tsAt now) := by
  simp [generateDemandData, List.map_map, Function.comp]

theorem map_ts_generateInterchangeData (rexp : ℚ → ℚ) (now : ℤ) :
    (generateInterchangeData rexp now).map (fun p => p.timestamp)
      = (List.range TOTAL_POINTS).map (tsAt now) := by
  simp [generateInterchangeData, interchangePointAt, List.map_map, Function.comp]

theorem getLast?_eq_some_getLastD {α : Type} {l : List α} (d : α) (h : l ≠ []) :
    l.getLast? = some (l.getLastD d) := by
  cases hl : l.getLast? with
  | none =>
      rw [List.getLast?_eq_getElem?] at hl
      rcases l with - | ⟨a, t⟩
      · exact absurd rfl h
      · rw [List.getElem?_eq_getElem (by simp)] at hl
        exact absurd hl (by simp)
  | some x =>
      rw [List.getLastD_eq_getLast?, hl]
      simp

theorem smoothAt_bound {values : List ℤ} {a b : ℤ} {w i : ℕ}
    (hi : i < values.length) (hv : ∀ x ∈ values, a ≤ x ∧ x ≤ b) :
    (a : ℚ) ≤ smoothAt values w i ∧ smoothAt values w i ≤ (b : ℚ) := by
  unfold smoothAt
  set lo := i - w with hlo
  set hi₂ := min (values.length - 1) (i + w) with hhi
  set count := hi₂ + 1 - lo with hcount
  have hc : 0 < count := by
    have h1 : lo ≤ i := Nat.sub_le i w
    have h2 : i ≤ hi₂ := le_min (by omega) (by omega)
    omega
  set L := (List.range count).map (fun j => values.getD (lo + j) 0) with hL
  have hlen : L.length = count := by simp [hL]
  have hmem : ∀ x ∈ L, a ≤ x ∧ x ≤ b := by
    intro x hx
    rw [hL, List.mem_map] at hx
    obtain ⟨j, hj, rfl⟩ := hx
    rw [List.mem_range] at hj
    have hidx : lo + j < values.length := by omega
    rw [List.getD_eq_getElem values 0 hidx]
    exact hv _ (List.getElem_mem hidx)
  have hsum_le : L.sum ≤ count * b := by
    have := List.sum_le_card_nsmul L b (fun x hx => (hmem x hx).2)
    rwa [hlen, nsmul_eq_mul] at this
  have hle_sum : count * a ≤ L.sum := by
    have := List.card_nsmul_le_sum L a (fun x hx => (hmem x hx).1)
    rwa [hlen, nsmul_eq_mul] at this
  have hcq : (0 : ℚ) < (count : ℚ) := by exact_mod_cast hc
  constructor
  · rw [le_div_iff₀ hcq]
    calc (a : ℚ) * count = ((count * a : ℤ) : ℚ) := by push_cast; ring
      _ ≤ ((L.sum : ℤ) : ℚ) := by exact_mod_cast hle_sum
  · rw [div_le_iff₀ hcq]
    calc ((L.sum : ℤ) : ℚ) ≤ ((count * b : ℤ) : ℚ) := by exact_mod_cast hsum_le
      _ = (b : ℚ) * count := by push_cast; ring

theorem get_ts_generateCarbonSignal (rexp : ℚ → ℚ) (now : ℤ) (i : ℕ)
    (h : i < (generateCarbonSignal rexp now).length) :
    ((generateCarbonSignal rexp now).get ⟨i, h⟩).timestamp = tsAt now i := by
  have h' := h
  rw [length_generateCarbonSignal] at h'
  rw [List.get_eq_getElem]
  simp [generateCarbonSignal]

theorem get_ts_generateGenerationMix (rexp : ℚ → ℚ) (now : ℤ) (i : ℕ)
    (h : i < (generateGenerationMix rexp now).length) :
    ((generateGenerationMix rexp now).get ⟨i, h⟩).timestamp = tsAt now i := by
  rw [List.get_eq_getElem]
  simp [generateGenerationMix, generationPointAt]

theorem get_ts_generateDemandData (rexp : ℚ → ℚ) (now : ℤ) (i : ℕ)
    (h : i < (generateDemandData rexp now).length) :
    ((generateDemandData rexp now).get ⟨i, h⟩).timestamp = tsAt now i := by
  rw [List.get_eq_getElem]
  simp [generateDemandData]

theorem get_ts_generateInterchangeData (rexp : ℚ → ℚ) (now : ℤ) (i : ℕ)
    (h : i < (generateInterchangeData rexp now).length) :
    ((generateInterchangeData rexp now).get ⟨i, h⟩).timestamp = tsAt now i := by
  rw [List.get_eq_getElem]
  simp [generateInterchangeData, interchangePointAt]

/-! ## Association-list lemmas -/

theorem alUpdate_nil {κ β : Type} [DecidableEq κ] (k : κ) (init : β) (f : β → β) :
    alUpdate k init f ([] : List (κ × β)) = [(k, f init)] := rfl

theorem alUpdate_cons_eq {κ β : Type} [DecidableEq κ] {k₀ k : κ} (h : k₀ = k) (init v : β)
    (f : β → β) (rest : List (κ × β)) :
    alUpdate k init f ((k₀, v) :: rest) = (k₀, f v) :: rest := by
  simp [alUpdate, h]

theorem alUpdate_cons_ne {κ β : Type} [DecidableEq κ] {k₀ k : κ} (h : ¬k₀ = k) (init v : β)
    (f : β → β) (rest : List (κ × β)) :
    alUpdate k init f ((k₀, v) :: rest) = (k₀, v) :: alUpdate k init f rest := by
  simp [alUpdate, h]

theorem alKeys_nil {κ β : Type} : alKeys ([] : List (κ × β)) = [] := rfl

theorem alKeys_cons {κ β : Type} (k₀ : κ) (v : β) (rest : List (κ × β)) :
    alKeys ((k₀, v) :: rest) = k₀ :: alKeys rest := rfl

theorem alKeys_alUpdate {κ β : Type} [DecidableEq κ] (k : κ) (init : β) (f : β → β)
    (m : List (κ × β)) :
    alKeys (alUpdate k init f m)
      = if k ∈ alKeys m then alKeys m else alKeys m ++ [k] := by
  induction m with
  | nil => simp [alUpdate_nil, alKeys]
  | cons kv rest ih =>
      obtain ⟨k₀, v⟩ := kv
      by_cases h : k₀ = k
      · subst h
        rw [alUpdate_cons_eq rfl, alKeys_cons, alKeys_cons,
          if_pos (List.mem_cons_self _ _)]
      · rw [alUpdate_cons_ne h, alKeys_cons, alKeys_cons, ih]
        by_cases hm : k ∈ alKeys rest
        · rw [if_pos hm, if_pos (List.mem_cons_of_mem _ hm)]
        · have hm' : k ∉ k₀ :: alKeys rest := by
            intro hc
            rcases List.mem_cons.mp hc with he | he
            · exact h he.symm
            · exact hm he
          rw [if_neg hm, if_neg hm', List.cons_append]

theorem mem_alKeys_alUpdate {κ β : Type} [DecidableEq κ] (k : κ) (init : β) (f : β → β)
    (m : List (κ × β)) : k ∈ alKeys (alUpdate k init f m) := by
  rw [alKeys_alUpdate]
  split <;> simp [*]

theorem alKeys_alUpdate_superset {κ β : Type} [DecidableEq κ] {k' : κ} (k : κ) (init : β)
    (f : β → β) {m : List (κ × β)} (h : k' ∈ alKeys m) :
    k' ∈ alKeys (alUpdate k init f m) := by
  rw [alKeys_alUpdate]
  split <;> simp [h]

theorem nodup_alKeys_alUpdate {κ β : Type} [DecidableEq κ] (k : κ) (init : β) (f : β → β)
    {m : List (κ × β)} (h : (alKeys m).Nodup) : (alKeys (alUpdate k init f m)).Nodup := by
  rw [alKeys_alUpdate]
  split
  · exact h
  · next hk =>
      rw [List.nodup_append]
      refine ⟨h, List.nodup_singleton k, ?_⟩
      intro a ha hb
      rw [List.mem_singleton] at hb
      subst hb
      exact hk ha

theorem mem_alUpdate {κ β : Type} [DecidableEq κ] {k : κ} {init : β} {f : β → β}
    {m : List (κ × β)} {x : κ × β} (hx : x ∈ alUpdate k init f m) :
    x ∈ m ∨ ∃ v, x = (k, f v) ∧ (v = init ∨ (k, v) ∈ m) := by
  induction m with
  | nil =>
      rw [alUpdate_nil, List.mem_singleton] at hx
      exact Or.inr ⟨init, hx, Or.inl rfl⟩
  | cons kv rest ih =>
      obtain ⟨k₀, v⟩ := kv
      by_cases h : k₀ = k
      · rw [alUpdate_cons_eq h, List.mem_cons] at hx
        rcases hx with he | hx
        · exact Or.inr ⟨v, by rw [he, h], Or.inr (by rw [← h]; exact List.mem_cons_self _ _)⟩
        · exact Or.inl (List.mem_cons_of_mem _ hx)
      · rw [alUpdate_cons_ne h, List.mem_cons] at hx
        rcases hx with he | hx
        · exact Or.inl (he ▸ List.mem_cons_self _ _)
        · rcases ih hx with hm | ⟨v', he, hv⟩
          · exact Or.inl (List.mem_cons_of_mem _ hm)
          · rcases hv with rfl | hv
            · exact Or.inr ⟨v', he, Or.inl rfl⟩
            · exact Or.inr ⟨v', he, Or.inr (List.mem_cons_of_mem _ hv)⟩

theorem mem_alUpdate_nodup {κ β : Type} [DecidableEq κ] {k : κ} {init : β} {f : β → β}
    {m : List (κ × β)} (hnd : (alKeys m).Nodup) {x : κ × β} (hx : x ∈ alUpdate k init f m) :
    (x ∈ m ∧ x.1 ≠ k) ∨
      (x.1 = k ∧ ((k ∉ alKeys m ∧ x.2 = f init) ∨ ∃ v, (k, v) ∈ m ∧ x.2 = f v)) := by
  induction m with
  | nil =>
      rw [alUpdate_nil, List.mem_singleton] at hx
      exact Or.inr ⟨by rw [hx], Or.inl ⟨by simp [alKeys_nil], by rw [hx]⟩⟩
  | cons kv rest ih =>
      obtain ⟨k₀, v⟩ := kv
      have hnd' : (alKeys rest).Nodup := by
        rw [alKeys_cons] at hnd
        exact hnd.of_cons
      have hk₀ : k₀ ∉ alKeys rest := by
        rw [alKeys_cons, List.nodup_cons] at hnd
        exact hnd.1
      by_cases h : k₀ = k
      · rw [alUpdate_cons_eq h, List.mem_cons] at hx
        rcases hx with he | hx
        · exact Or.inr ⟨by rw [he, h],
            Or.inr ⟨v, by rw [← h]; exact List.mem_cons_self _ _, by rw [he]⟩⟩
        · refine Or.inl ⟨List.mem_cons_of_mem _ hx, fun hek => ?_⟩
          refine hk₀ ?_
          rw [h, ← hek]
          exact List.mem_map_of_mem Prod.fst hx
      · rw [alUpdate_cons_ne h, List.mem_cons] at hx
        rcases hx with he | hx
        · exact Or.inl ⟨he ▸ List.mem_cons_self _ _, by rw [he]; exact fun hek => h hek⟩
        · rcases ih hnd' hx with ⟨hm, hne⟩ | ⟨he, hrest⟩
          · exact Or.inl ⟨List.mem_cons_of_mem _ hm, hne⟩
          · refine Or.inr ⟨he, ?_⟩
            rcases hrest with ⟨hkn, hv⟩ | ⟨v', hv', hev⟩
            · refine Or.inl ⟨?_, hv⟩
              rw [alKeys_cons]
              intro hc
              rcases List.mem_cons.mp hc with hek | hek
              · exact h hek.symm
              · exact hkn hek
            · exact Or.inr ⟨v', List.mem_cons_of_mem _ hv', hev⟩

theorem foldl_preserve {α β : Type} {Q : β → Prop} (step : β → α → β)
    (h : ∀ b a, Q b → Q (step b a)) :
    ∀ (rows : List α) (b : β), Q b → Q (rows.foldl step b) := by
  intro rows
  induction rows with
  | nil => intro b hb; simpa using hb
  | cons r rows ih =>
      intro b hb
      rw [List.foldl_cons]
      exact ih _ (h b r hb)

theorem foldl_inv {α β : Type} {P : β → List α → Prop} (step : β → α → β)
    (hstep : ∀ b a pref, P b pref → P (step b a) (pref ++ [a])) :
    ∀ (rows : List α) (b : β) (pref : List α), P b pref → P (rows.foldl step b) (pref ++ rows) := by
  intro rows
  induction rows with
  | nil => intro b pref h; simpa using h
  | cons r rows ih =>
      intro b pref h
      rw [List.foldl_cons]
      have := ih (step b r) (pref ++ [r]) (hstep b r pref h)
      simpa [List.append_assoc] using this

/-- Sorting by a key with a duplicate-free key list yields a strictly
increasing key sequence ("sorted ascending and free of duplicates"). -/
theorem pairwise_lt_map_insertionSort {α κ : Type} [LinearOrder κ] (kf : α → κ)
    (l : List α) (hnd : (l.map kf).Nodup) :
    ((l.insertionSort (fun a b => kf a ≤ kf b)).map kf).Pairwise (· < ·) := by
  haveI ht : IsTotal α (fun a b => kf a ≤ kf b) := ⟨fun a b => le_total _ _⟩
  haveI htr : IsTrans α (fun a b => kf a ≤ kf b) := ⟨fun a b c hab hbc => le_trans hab hbc⟩
  have hs : (l.insertionSort (fun a b => kf a ≤ kf b)).Pairwise (fun a b => kf a ≤ kf b) :=
    List.sorted_insertionSort (fun a b => kf a ≤ kf b) l
  have hperm := List.perm_insertionSort (fun a b => kf a ≤ kf b) l
  have hnd' : ((l.insertionSort (fun a b => kf a ≤ kf b)).map kf).Nodup :=
    ((hperm.map kf).symm).nodup hnd
  have hle : ((l.insertionSort (fun a b => kf a ≤ kf b)).map kf).Pairwise (· ≤ ·) :=
    List.pairwise_map.mpr hs
  have hne : ((l.insertionSort (fun a b => kf a ≤ kf b)).map kf).Pairwise (· ≠ ·) := hnd'
  exact (hle.and hne).imp (fun h => lt_of_le_of_ne h.1 h.2)

/-! ## Pivot invariants -/

theorem timestamp_genApply {τ : Type} (ft : String) (val : ℤ) (p : GenerationPoint τ) :
    (genApply ft val p).timestamp = p.timestamp := by
  unfold genApply
  split_ifs <;> rfl

theorem comps_genApply {τ : Type} {ft : String} {val : ℤ} {p : GenerationPoint τ}
    (hval : 0 ≤ val)
    (hp : 0 ≤ p.hydro ∧ 0 ≤ p.wind ∧ 0 ≤ p.gas ∧ 0 ≤ p.solar ∧ 0 ≤ p.other) :
    0 ≤ (genApply ft val p).hydro ∧ 0 ≤ (genApply ft val p).wind ∧
    0 ≤ (genApply ft val p).gas ∧ 0 ≤ (genApply ft val p).solar ∧
    0 ≤ (genApply ft val p).other := by
  obtain ⟨h1, h2, h3, h4, h5⟩ := hp
  unfold genApply
  split_ifs <;> refine ⟨?_, ?_, ?_, ?_, ?_⟩ <;> (simp_all; try omega)

theorem timestamp_demApply {τ : Type} (rt : String) (val : ℤ) (p : DemandPoint τ) :
    (demApply rt val p).timestamp = p.timestamp := by
  unfold demApply
  split_ifs <;> rfl

theorem genInv_foldl {τ : Type} [DecidableEq τ] (rows : List (EIARow τ)) :
    GenInv (rows.foldl genStep []) := by
  refine foldl_preserve genStep ?_ rows [] ⟨by simp [alKeys_nil], by simp⟩
  intro m r ⟨hnd, hmem⟩
  refine ⟨nodup_alKeys_alUpdate _ _ _ hnd, ?_⟩
  intro kv hkv
  rcases mem_alUpdate hkv with hm | ⟨v, rfl, hv⟩
  · exact hmem kv hm
  · have hval : (0 : ℤ) ≤ max 0 (parseVal r) := le_max_left 0 _
    rcases hv with rfl | hv
    · refine ⟨by rw [timestamp_genApply]; rfl, ?_⟩
      exact comps_genApply hval (by simp [zeroGen])
    · obtain ⟨hts, hcomps⟩ := hmem _ hv
      exact ⟨by rw [timestamp_genApply]; exact hts, comps_genApply hval hcomps⟩

theorem demInv_foldl {τ : Type} [DecidableEq τ] (rows : List (EIARow τ)) :
    DemInv (rows.foldl demStep []) := by
  refine foldl_preserve demStep ?_ rows [] ⟨by simp [alKeys_nil], by simp⟩
  intro m r ⟨hnd, hmem⟩
  refine ⟨nodup_alKeys_alUpdate _ _ _ hnd, ?_⟩
  intro kv hkv
  rcases mem_alUpdate hkv with hm | ⟨v, rfl, hv⟩
  · exact hmem kv hm
  · rcases hv with rfl | hv
    · rw [timestamp_demApply]; rfl
    · rw [timestamp_demApply]; exact hmem _ hv

theorem sumAt_append_same {τ : Type} [DecidableEq τ] (pref : List (EIARow τ)) (r : EIARow τ) :
    sumAt (pref ++ [r]) (tsOf r) = sumAt pref (tsOf r) + parseVal r := by
  simp [sumAt, List.filter_append]

theorem sumAt_append_ne {τ : Type} [DecidableEq τ] (pref : List (EIARow τ)) {r : EIARow τ}
    {ts : τ} (h : ¬tsOf r = ts) : sumAt (pref ++ [r]) ts = sumAt pref ts := by
  simp [sumAt, List.filter_append, h]

theorem sumAt_eq_zero {τ : Type} [DecidableEq τ] {pref : List (EIARow τ)} {ts : τ}
    (h : ∀ r ∈ pref, ¬tsOf r = ts) : sumAt pref ts = 0 := by
  unfold sumAt
  rw [List.filter_eq_nil_iff.mpr (by simpa using h)]
  rfl

theorem iStep_inv {τ : Type} [DecidableEq τ] (m : List (τ × IEntry)) (r : EIARow τ)
    (pref : List (EIARow τ)) (h : IInv m pref) : IInv (iStep m r) (pref ++ [r]) := by
  obtain ⟨hnd, hcov, hsum⟩ := h
  simp only [iStep]
  refine ⟨nodup_alKeys_alUpdate _ _ _ hnd, ?_, ?_⟩
  · intro r' hr'
    rcases List.mem_append.mp hr' with hr' | hr'
    · exact alKeys_alUpdate_superset _ _ _ (hcov r' hr')
    · rw [List.mem_singleton] at hr'
      subst hr'
      exact mem_alKeys_alUpdate _ _ _ _
  · intro kv hkv
    rcases mem_alUpdate_nodup hnd hkv with ⟨hm, hne⟩ | ⟨hk, hrest⟩
    · rw [sumAt_append_ne pref (fun he => hne he.symm)]
      exact hsum kv hm
    · rw [hk, sumAt_append_same]
      rcases hrest with ⟨hkn, hv⟩ | ⟨v, hv', hev⟩
      · have hzero : sumAt pref (tsOf r) = 0 := by
          refine sumAt_eq_zero ?_
          intro r' hr' he
          exact hkn (he ▸ hcov r' hr')
        rw [hv, hzero]
      · rw [hev]
        have hv2 : v.netExport = sumAt pref (tsOf r) := hsum (tsOf r, v) hv'
        show v.netExport + parseVal r = sumAt pref (tsOf r) + parseVal r
        rw [hv2]

theorem iInv_foldl {τ : Type} [DecidableEq τ] (rows : List (EIARow τ)) :
    IInv (rows.foldl iStep []) rows := by
  have h := foldl_inv (P := fun m pref => IInv m pref) iStep iStep_inv rows [] []
    ⟨by simp [alKeys_nil], by simp, by simp⟩
  simpa using h

/-! ## Pivot output facts -/

theorem pairwise_ts_fetchGeneration {τ : Type} [LinearOrder τ] (rows : List (EIARow τ)) :
    ((fetchGeneration rows).map (fun p => p.timestamp)).Pairwise (· < ·) := by
  obtain ⟨hnd, hmem⟩ := genInv_foldl rows
  simp only [fetchGeneration]
  refine pairwise_lt_map_insertionSort (fun p : GenerationPoint τ => p.timestamp) _ ?_
  rw [List.map_map]
  have heq : List.map (fun kv : τ × GenerationPoint τ => kv.2.timestamp) (rows.foldl genStep [])
      = alKeys (rows.foldl genStep []) :=
    List.map_congr_left (fun kv hkv => (hmem kv hkv).1)
  show (List.map (fun kv : τ × GenerationPoint τ => kv.2.timestamp) (rows.foldl genStep [])).Nodup
  rw [heq]
  exact hnd

theorem pairwise_ts_fetchDemand {τ : Type} [LinearOrder τ] (rows : List (EIARow τ)) :
    ((fetchDemand rows).map (fun p => p.timestamp)).Pairwise (· < ·) := by
  obtain ⟨hnd, hmem⟩ := demInv_foldl rows
  simp only [fetchDemand]
  refine pairwise_lt_map_insertionSort (fun p : DemandPoint τ => p.timestamp) _ ?_
  rw [List.map_map]
  have heq : List.map (fun kv : τ × DemandPoint τ => kv.2.timestamp) (rows.foldl demStep [])
      = alKeys (rows.foldl demStep []) :=
    List.map_congr_left (fun kv hkv => hmem kv hkv)
  show (List.map (fun kv : τ × DemandPoint τ => kv.2.timestamp) (rows.foldl demStep [])).Nodup
  rw [heq]
  exact hnd

theorem pairwise_ts_fetchInterchange {τ : Type} [LinearOrder τ] (rows : List (EIARow τ)) :
    ((fetchInterchange rows).map (fun p => p.timestamp)).Pairwise (· < ·) := by
  obtain ⟨hnd, hcov, hsum⟩ := iInv_foldl rows
  simp only [fetchInterchange]
  refine pairwise_lt_map_insertionSort (fun p : InterchangePoint τ => p.timestamp) _ ?_
  rw [List.map_map]
  exact hnd

theorem netExport_fetchInterchange {τ : Type} [LinearOrder τ] (rows : List (EIARow τ)) :
    ∀ p ∈ fetchInterchange rows,
      p.netExport = sumAt rows p.timestamp ∧ p.flows.length ≤ 8 := by
  intro p hp
  unfold fetchInterchange at hp
  rw [(List.perm_insertionSort _ _).mem_iff] at hp
  obtain ⟨kv, hkv, rfl⟩ := List.mem_map.mp hp
  obtain ⟨hnd, hcov, hsum⟩ := iInv_foldl rows
  constructor
  · exact hsum kv hkv
  · show (((kv.2.flows.map (fun rv => InterchangeFlow.mk rv.1 rv.2)).insertionSort
        (fun a b => |b.value| ≤ |a.value|)).take 8).length ≤ 8
    rw [List.length_take]
    exact min_le_left _ _

theorem total_fetchGeneration {τ : Type} [LinearOrder τ] (rows : List (EIARow τ)) :
    ∀ p ∈ fetchGeneration rows,
      p.total = p.hydro + p.wind + p.gas + p.solar + p.other ∧
      0 ≤ p.hydro ∧ 0 ≤ p.wind ∧ 0 ≤ p.gas ∧ 0 ≤ p.solar ∧ 0 ≤ p.other := by
  intro p hp
  unfold fetchGeneration at hp
  rw [(List.perm_insertionSort _ _).mem_iff] at hp
  obtain ⟨kv, hkv, rfl⟩ := List.mem_map.mp hp
  obtain ⟨hnd, hmem⟩ := genInv_foldl rows
  obtain ⟨hts, h1, h2, h3, h4, h5⟩ := hmem kv hkv
  exact ⟨rfl, h1, h2, h3, h4, h5⟩

/-! ## Claim theorems -/

/-- C2, amended: `getWattTimeToken` caches the bearer token in process memory,
and any call made while the cached token is unexpired returns it without
issuing a login request; but the stored expiry is set to the provider's full
25-minute assumed lifetime (`Date.now() + 25 * 60_000`), with no 5-minute
safety margin (the claim's "20 minutes after acquisition" does not hold). -/
theorem claim_C2 :
    (∀ (cache : TokenCache) (nowMs : ℤ) (login : Except ℤ ℤ) (tk : ℤ),
        cache.wattTimeToken = some tk → nowMs < cache.tokenExpiry →
        getWattTimeToken cache nowMs login = .ok ⟨tk, cache, false⟩) ∧
    (∀ (cache : TokenCache) (nowMs : ℤ) (tk : ℤ),
        cache.wattTimeToken = none ∨ cache.tokenExpiry ≤ nowMs →
        getWattTimeToken cache nowMs (.ok tk)
          = .ok ⟨tk, ⟨some tk, nowMs + 25 * 60000⟩, true⟩) := by
  constructor
  · intro cache nowMs login tk hct hexp
    simp [getWattTimeToken, hct, hexp]
  · intro cache nowMs tk hmiss
    have hcond : ¬(cache.wattTimeToken.isSome ∧ nowMs < cache.tokenExpiry) := by
      rcases hmiss with h | h
      · intro hc
        rw [h] at hc
        exact absurd hc.1 (by simp)
      · intro hc
        exact absurd hc.2 (not_lt.mpr h)
    simp [getWattTimeToken, hcond]

/-- Witness for C2: a cache hit 10 minutes in returns the cached token with no
login (even when the login endpoint would fail), and a cold call at `t = 0`
stores expiry `0 + 25 * 60_000`. -/
theorem claim_C2_witness :
    getWattTimeToken ⟨some 7, 1500000⟩ 600000 (.error 401) = .ok ⟨7, ⟨some 7, 1500000⟩, false⟩ ∧
    getWattTimeToken ⟨none, 0⟩ 0 (.ok 9) = .ok ⟨9, ⟨some 9, 0 + 25 * 60000⟩, true⟩ :=
  ⟨claim_C2.1 ⟨some 7, 1500000⟩ 600000 (.error 401) 7 rfl (by norm_num),
   claim_C2.2 ⟨none, 0⟩ 0 9 (Or.inl rfl)⟩

/-- Counterexample to C2 as stated: after acquisition at `t = 0` the stored
expiry is `1\_500\_000` ms (25 minutes), not the claimed `1\_200\_000` ms
(20 minutes), and a call at `t = 1\_260\_000` (21 minutes in, past the claimed
expiry) still returns the cached token without issuing a login request. -/
theorem claim_C2_cex :
    getWattTimeToken ⟨none, 0⟩ 0 (.ok 7) = .ok ⟨7, ⟨some 7, 1500000⟩, true⟩ ∧
    (1500000 : ℤ) ≠ 0 + 20 * 60000 ∧
    getWattTimeToken ⟨some 7, 1500000⟩ 1260000 (.error 401)
      = .ok ⟨7, ⟨some 7, 1500000⟩, false⟩ := by
  refine ⟨?_, by norm_num, ?_⟩
  · simp [getWattTimeToken]
  · norm_num [getWattTimeToken]

theorem fetchLiveDataE_error_of {τ : Type} [LinearOrder τ] {nowTs emptyTs : τ}
    {cr : Except String (List (WTRow τ))} {gr dr ir : Except String (List (EIARow τ))}
    (h : (∃ e, cr = .error e) ∨ (∃ e, gr = .error e) ∨ (∃ e, dr = .error e) ∨
      (∃ e, ir = .error e)) :
    ∃ msg, fetchLiveDataE nowTs emptyTs cr gr dr ir = .error msg := by
  cases cr <;> cases gr <;> cases dr <;> cases ir <;>
    simp_all [fetchLiveDataE, Bind.bind, Except.bind]

/-- C6: if any sub-fetch of a live refresh fails, the whole assembly rejects
with an error message, and settling that failed refresh leaves the held
snapshot and `lastUpdated` unchanged, sets `isLive` to `false`, records the
message, and clears the in-flight flag — no partial snapshot is published. -/
theorem claim_C6 {τ : Type} [LinearOrder τ] (nowTs emptyTs : τ)
    (cr : Except String (List (WTRow τ))) (gr dr ir : Except String (List (EIARow τ)))
    (st : ControllerState (GridSnapshot τ)) (t : ℤ)
    (hfail : (∃ e, cr = .error e) ∨ (∃ e, gr = .error e) ∨ (∃ e, dr = .error e) ∨
      (∃ e, ir = .error e)) :
    ∃ msg, fetchLiveDataE nowTs emptyTs cr gr dr ir = .error msg ∧
      (settleLive st (.error msg) t).data = st.data ∧
      (settleLive st (.error msg) t).lastUpdated = st.lastUpdated ∧
      (settleLive st (.error msg) t).isLive = false ∧
      (settleLive st (.error msg) t).error = some msg ∧
      (settleLive st (.error msg) t).fetching = false := by
  obtain ⟨msg, hmsg⟩ := fetchLiveDataE_error_of hfail
  exact ⟨msg, hmsg, rfl, rfl, rfl, rfl, rfl⟩

/-- Witness for C6: a failed token exchange (carbon sub-fetch rejected with
`auth 401`) while a snapshot is held. -/
theorem claim_C6_witness :
    ∃ msg, fetchLiveDataE (0 : ℤ) 0 (.error "WattTime auth failed: 401") (.ok []) (.ok [])
        (.ok []) = .error msg ∧
      (settleLive ⟨some (assembleSnapshot (0 : ℤ) 0 [] [] [] []), 42, true, none, true⟩
          (.error msg) 99).data = some (assembleSnapshot (0 : ℤ) 0 [] [] [] []) ∧
      (settleLive ⟨some (assembleSnapshot (0 : ℤ) 0 [] [] [] []), 42, true, none, true⟩
          (.error msg) 99).lastUpdated = 42 ∧
      (settleLive ⟨some (assembleSnapshot (0 : ℤ) 0 [] [] [] []), 42, true, none, true⟩
          (.error msg) 99).isLive = false ∧
      (settleLive ⟨some (assembleSnapshot (0 : ℤ) 0 [] [] [] []), 42, true, none, true⟩
          (.error msg) 99).error = some msg ∧
      (settleLive ⟨some (assembleSnapshot (0 : ℤ) 0 [] [] [] []), 42, true, none, true⟩
          (.error msg) 99).fetching = false :=
  claim_C6 0 0 (.error "WattTime auth failed: 401") (.ok []) (.ok []) (.ok [])
    ⟨some (assembleSnapshot 0 0 [] [] [] []), 42, true, none, true⟩ 99
    (Or.inl ⟨"WattTime auth failed: 401", rfl⟩)

theorem runLive_pending_le {σ : Type} (events : List (LiveEvent σ)) :
    (runLive events).2 ≤ 1 ∧ ((runLive events).1.fetching = true ↔ (runLive events).2 = 1) := by
  refine foldl_preserve (Q := fun s : ControllerState σ × ℕ =>
    s.2 ≤ 1 ∧ (s.1.fetching = true ↔ s.2 = 1)) liveStep ?_ events (initController, 0)
    ⟨by norm_num, by simp [initController]⟩
  intro s e hs
  obtain ⟨st, n⟩ := s
  obtain ⟨h1, h2⟩ := hs
  simp only at h1 h2
  cases e with
  | tick =>
      by_cases hf : st.fetching = true
      · simp only [liveStep, tickLive, if_pos hf]
        exact ⟨h1, h2⟩
      · have h0 : n = 0 := by
          by_cases h21 : n = 1
          · exact absurd (h2.mpr h21) hf
          · omega
        simp [liveStep, tickLive, hf, h0]
  | settle outcome t =>
      cases n with
      | zero =>
          simp only [liveStep]
          exact ⟨h1, h2⟩
      | succ n =>
          have hn : n = 0 := by omega
          subst hn
          cases outcome <;> simp [liveStep, settleLive]

/-- C7: in live mode at most one assembly is in flight — the instrumented
pending-fetch counter never exceeds 1 and agrees with the `fetching` flag; a
tick arriving while `fetching` is set is a no-op (dropped, not queued); and
settling (success or failure) clears the flag, after which the next tick does
start a fetch. -/
theorem claim_C7 (σ : Type) (events : List (LiveEvent σ)) :
    (runLive events).2 ≤ 1 ∧
    ((runLive events).1.fetching = true ↔ (runLive events).2 = 1) ∧
    (∀ (st : ControllerState σ) (n : ℕ), st.fetching = true →
        liveStep (st, n) .tick = (st, n)) ∧
    (∀ (st : ControllerState σ) (outcome : Except String σ) (t : ℤ),
        (settleLive st outcome t).fetching = false) ∧
    (∀ (st : ControllerState σ) (outcome : Except String σ) (t : ℤ),
        (tickLive (settleLive st outcome t)).2 = true) := by
  refine ⟨(runLive_pending_le events).1, (runLive_pending_le events).2, ?_, ?_, ?_⟩
  · intro st n h
    simp [liveStep, tickLive, h]
  · intro st outcome t
    cases outcome <;> rfl
  · intro st outcome t
    cases outcome <;> simp [tickLive, settleLive]

/-- Witness for C7: two ticks with the first fetch still pending leave exactly
one fetch in flight, and a tick on a fetching state is dropped. -/
theorem claim_C7_witness :
    (runLive (σ := ℕ) [.tick, .tick]).2 ≤ 1 ∧
    liveStep ((⟨none, 0, true, none, true⟩ : ControllerState ℕ), 1) .tick
      = (⟨none, 0, true, none, true⟩, 1) :=
  ⟨(claim_C7 ℕ [.tick, .tick]).1, (claim_C7 ℕ [.tick, .tick]).2.2.1 _ 1 rfl⟩

/-- C9: every simulated metric series has exactly 288 points; the timestamp of
slot `i` is `tsAt now i = now - (287 - i) * 300000`, so timestamps are spaced
exactly 5 minutes apart, strictly increasing, and end at the given instant
(`tsAt now 287 = now`); and the snapshot's latest record of each metric is the
last element of that metric's series. -/
theorem claim_C9 (rexp : ℚ → ℚ) (now : ℤ) :
    ((generateCarbonSignal rexp now).length = TOTAL_POINTS ∧
      (generateGenerationMix rexp now).length = TOTAL_POINTS ∧
      (generateDemandData rexp now).length = TOTAL_POINTS ∧
      (generateInterchangeData rexp now).length = TOTAL_POINTS) ∧
    ((∀ (i : ℕ) (h : i < (generateCarbonSignal rexp now).length),
        ((generateCarbonSignal rexp now).get ⟨i, h⟩).timestamp = tsAt now i) ∧
      (∀ (i : ℕ) (h : i < (generateGenerationMix rexp now).length),
        ((generateGenerationMix rexp now).get ⟨i, h⟩).timestamp = tsAt now i) ∧
      (∀ (i : ℕ) (h : i < (generateDemandData rexp now).length),
        ((generateDemandData rexp now).get ⟨i, h⟩).timestamp = tsAt now i) ∧
      (∀ (i : ℕ) (h : i < (generateInterchangeData rexp now).length),
        ((generateInterchangeData rexp now).get ⟨i, h⟩).timestamp = tsAt now i)) ∧
    ((∀ i : ℕ, tsAt now (i + 1) = tsAt now i + 300000) ∧
      tsAt now 287 = now ∧
      ∀ i j : ℕ, i < j → tsAt now i < tsAt now j) ∧
    ((getGridSnapshot rexp now).timeSeries.carbon.getLast?
        = some (getGridSnapshot rexp now).latest.carbon ∧
      (getGridSnapshot rexp now).timeSeries.generation.getLast?
        = some (getGridSnapshot rexp now).latest.generation ∧
      (getGridSnapshot rexp now).timeSeries.demand.getLast?
        = some (getGridSnapshot rexp now).latest.demand ∧
      (getGridSnapshot rexp now).timeSeries.interchange.getLast?
        = some (getGridSnapshot rexp now).latest.interchange) := by
  refine ⟨⟨length_generateCarbonSignal rexp now, length_generateGenerationMix rexp now,
      length_generateDemandData rexp now, length_generateInterchangeData rexp now⟩,
    ⟨get_ts_generateCarbonSignal rexp now, get_ts_generateGenerationMix rexp now,
      get_ts_generateDemandData rexp now, get_ts_generateInterchangeData rexp now⟩,
    ⟨tsAt_succ now, tsAt_last now, fun i j h => tsAt_lt h⟩, ?_, ?_, ?_, ?_⟩ <;>
    simp only [getGridSnapshot]
  · exact getLast?_eq_some_getLastD _ (List.length_pos.mp
      (by rw [length_generateCarbonSignal]; norm_num [TOTAL_POINTS]))
  · exact getLast?_eq_some_getLastD _ (List.length_pos.mp
      (by rw [length_generateGenerationMix]; norm_num [TOTAL_POINTS]))
  · exact getLast?_eq_some_getLastD _ (List.length_pos.mp
      (by rw [length_generateDemandData]; norm_num [TOTAL_POINTS]))
  · exact getLast?_eq_some_getLastD _ (List.length_pos.mp
      (by rw [length_generateInterchangeData]; norm_num [TOTAL_POINTS]))

/-- Witness for C9 at a concrete abstracted exponential and instant. -/
theorem claim_C9_witness :
    (generateCarbonSignal (fun _ => 0) 0).length = TOTAL_POINTS ∧
    ((generateCarbonSignal (fun _ => 0) 0).get
        ⟨0, by rw [length_generateCarbonSignal]; norm_num [TOTAL_POINTS]⟩).timestamp
      = tsAt 0 0 :=
  ⟨(claim_C9 (fun _ => 0) 0).1.1, (claim_C9 (fun _ => 0) 0).2.1.1 0 _⟩

/-- C10: if the live intensity fetch succeeds with an empty point list while
the generation series is non-empty, assembly still succeeds (no error) and the
assembled carbon series has exactly one point per generation timestamp, each
carrying the default value 50 — in particular it is not left empty. -/
theorem claim_C10 {τ : Type} [LinearOrder τ] (nowTs emptyTs : τ)
    (grows drows irows : List (EIARow τ)) :
    fetchLiveDataE nowTs emptyTs (.ok []) (.ok grows) (.ok drows) (.ok irows)
      = .ok (assembleSnapshot nowTs emptyTs [] (fetchGeneration grows) (fetchDemand drows)
          (fetchInterchange irows)) ∧
    (assembleSnapshot nowTs emptyTs [] (fetchGeneration grows) (fetchDemand drows)
        (fetchInterchange irows)).timeSeries.carbon
      = (fetchGeneration grows).map (fun g => ⟨g.timestamp, 50⟩) ∧
    (fetchGeneration grows ≠ [] →
      (assembleSnapshot nowTs emptyTs [] (fetchGeneration grows) (fetchDemand drows)
          (fetchInterchange irows)).timeSeries.carbon ≠ []) := by
  have h2 : (assembleSnapshot nowTs emptyTs [] (fetchGeneration grows) (fetchDemand drows)
      (fetchInterchange irows)).timeSeries.carbon
      = (fetchGeneration grows).map (fun g => ⟨g.timestamp, 50⟩) := by
    simp [assembleSnapshot]
  refine ⟨rfl, h2, ?_⟩
  intro hne
  rw [h2]
  simpa using hne

/-- Witness for C10: one generation row, empty intensity response. -/
theorem claim_C10_witness :
    (assembleSnapshot (0 : ℤ) 0 [] (fetchGeneration [⟨1, some 2, "WAT", "", ""⟩])
        (fetchDemand []) (fetchInterchange [])).timeSeries.carbon ≠ [] :=
  (claim_C10 (0 : ℤ) 0 [⟨1, some 2, "WAT", "", ""⟩] [] []).2.2 (by decide)

/-- C5: every `GenerationPoint`, whether simulated or live-normalized,
satisfies `total = hydro + wind + gas + solar + other` exactly with all five
components nonnegative; both paths compute `total` from the components (the
simulation constructs it as their sum, the pivot overwrites it with the
component sum after grouping) and never take it from upstream. -/
theorem claim_C5 :
    (∀ (rexp : ℚ → ℚ) (now : ℤ), ∀ p ∈ generateGenerationMix rexp now,
        p.total = p.hydro + p.wind + p.gas + p.solar + p.other ∧
        0 ≤ p.hydro ∧ 0 ≤ p.wind ∧ 0 ≤ p.gas ∧ 0 ≤ p.solar ∧ 0 ≤ p.other) ∧
    (∀ (τ : Type) [LinearOrder τ] (rows : List (EIARow τ)), ∀ p ∈ fetchGeneration rows,
        p.total = p.hydro + p.wind + p.gas + p.solar + p.other ∧
        0 ≤ p.hydro ∧ 0 ≤ p.wind ∧ 0 ≤ p.gas ∧ 0 ≤ p.solar ∧ 0 ≤ p.other) := by
  constructor
  · intro rexp now p hp
    unfold generateGenerationMix at hp
    obtain ⟨i, hi, rfl⟩ := List.mem_map.mp hp
    refine ⟨rfl, ?_, ?_, ?_, ?_, ?_⟩ <;>
      · refine le_jround ?_
        push_cast
        exact le_max_left 0 _
  · intro τ _ rows p hp
    exact total_fetchGeneration rows p hp

/-- Witness for C5: one live generation row with a negative raw value. -/
theorem claim_C5_witness :
    ((fetchGeneration [⟨(1 : ℤ), some (-5), "WAT", "", ""⟩]).headD
        ⟨0, 0, 0, 0, 0, 0, 0⟩).total
      = ((fetchGeneration [⟨(1 : ℤ), some (-5), "WAT", "", ""⟩]).headD
            ⟨0, 0, 0, 0, 0, 0, 0⟩).hydro
        + ((fetchGeneration [⟨(1 : ℤ), some (-5), "WAT", "", ""⟩]).headD
            ⟨0, 0, 0, 0, 0, 0, 0⟩).wind
        + ((fetchGeneration [⟨(1 : ℤ), some (-5), "WAT", "", ""⟩]).headD
            ⟨0, 0, 0, 0, 0, 0, 0⟩).gas
        + ((fetchGeneration [⟨(1 : ℤ), some (-5), "WAT", "", ""⟩]).headD
            ⟨0, 0, 0, 0, 0, 0, 0⟩).solar
        + ((fetchGeneration [⟨(1 : ℤ), some (-5), "WAT", "", ""⟩]).headD
            ⟨0, 0, 0, 0, 0, 0, 0⟩).other ∧
    0 ≤ ((fetchGeneration [⟨(1 : ℤ), some (-5), "WAT", "", ""⟩]).headD
        ⟨0, 0, 0, 0, 0, 0, 0⟩).hydro ∧
    0 ≤ ((fetchGeneration [⟨(1 : ℤ), some (-5), "WAT", "", ""⟩]).headD
        ⟨0, 0, 0, 0, 0, 0, 0⟩).wind ∧
    0 ≤ ((fetchGeneration [⟨(1 : ℤ), some (-5), "WAT", "", ""⟩]).headD
        ⟨0, 0, 0, 0, 0, 0, 0⟩).gas ∧
    0 ≤ ((fetchGeneration [⟨(1 : ℤ), some (-5), "WAT", "", ""⟩]).headD
        ⟨0, 0, 0, 0, 0, 0, 0⟩).solar ∧
    0 ≤ ((fetchGeneration [⟨(1 : ℤ), some (-5), "WAT", "", ""⟩]).headD
        ⟨0, 0, 0, 0, 0, 0, 0⟩).other :=
  claim_C5.2 ℤ [⟨(1 : ℤ), some (-5), "WAT", "", ""⟩] _ (by decide)

/-- C4, amended: every simulated `CarbonPoint` value lies in `[0, 100]` (the
generator clamps before rounding and the moving average preserves the range);
the live normalization only rounds and does not clamp, so its outputs lie in
`[0, 100]` exactly when the upstream signal values do. -/
theorem claim_C4 :
    (∀ (rexp : ℚ → ℚ) (now : ℤ), ∀ p ∈ generateCarbonSignal rexp now,
        0 ≤ p.value ∧ p.value ≤ 100) ∧
    (∀ (τ : Type) (rows : List (WTRow τ)),
        (∀ r ∈ rows, 0 ≤ r.value ∧ r.value ≤ 100) →
        ∀ p ∈ fetchCarbonSignal rows, 0 ≤ p.value ∧ p.value ≤ 100) := by
  constructor
  · intro rexp now p hp
    simp only [generateCarbonSignal] at hp
    obtain ⟨i, hi, rfl⟩ := List.mem_map.mp hp
    rw [List.mem_range] at hi
    have hvb : ∀ x ∈ (List.range TOTAL_POINTS).map (carbonRawAt rexp now),
        (0 : ℤ) ≤ x ∧ x ≤ 100 := by
      intro x hx
      obtain ⟨j, hj, rfl⟩ := List.mem_map.mp hx
      unfold carbonRawAt
      constructor
      · refine le_jround ?_
        push_cast
        exact le_max_left 0 _
      · refine jround_le ?_
        push_cast
        exact max_le (by norm_num) (min_le_left _ _)
    have hlen : i < ((List.range TOTAL_POINTS).map (carbonRawAt rexp now)).length := by
      simpa using hi
    have hsb := smoothAt_bound (w := 2) hlen hvb
    exact ⟨le_jround hsb.1, jround_le hsb.2⟩
  · intro τ rows hb p hp
    unfold fetchCarbonSignal at hp
    obtain ⟨r, hr, rfl⟩ := List.mem_map.mp hp
    constructor
    · refine le_jround ?_
      push_cast
      exact (hb r hr).1
    · refine jround_le ?_
      push_cast
      exact (hb r hr).2

/-- Witness for C4: a single in-range live row. -/
theorem claim_C4_witness :
    0 ≤ (⟨(0 : ℤ), jround 40⟩ : CarbonPoint ℤ).value ∧
    (⟨(0 : ℤ), jround 40⟩ : CarbonPoint ℤ).value ≤ 100 :=
  claim_C4.2 ℤ [⟨0, 40⟩]
    (by
      intro r hr
      rw [List.mem_singleton] at hr
      subst hr
      norm_num)
    ⟨0, jround 40⟩ (by simp [fetchCarbonSignal])

/-- Counterexample to C4 as stated: the live normalization does not clamp, so
an upstream signal value of 150 produces a `CarbonPoint` with value 150,
violating `value ≤ 100`. -/
theorem claim_C4_cex :
    fetchCarbonSignal [(⟨0, 150⟩ : WTRow ℤ)] = [⟨0, 150⟩] ∧ ¬((150 : ℤ) ≤ 100) := by
  constructor
  · simp only [fetchCarbonSignal, List.map_cons, List.map_nil, List.cons.injEq, and_true]
    norm_num [jround]
  · norm_num

/-- C3, amended: the per-metric RNG seeds (hence the entire noise streams)
depend only on the calendar day — day-of-month and month — of the given
instant; the series themselves additionally depend on the instant through the
slot timestamps and the hour-of-day cycle factors, so only calls with the same
instant (the engine being a pure function of it) are guaranteed to produce
identical series. -/
theorem claim_C3 (t₁ t₂ : ℤ) (hd : getDate t₁ = getDate t₂)
    (hm : getMonth t₁ = getMonth t₂) :
    carbonSeed t₁ = carbonSeed t₂ ∧ generationSeed t₁ = generationSeed t₂ ∧
    demandSeed t₁ = demandSeed t₂ ∧ interchangeSeed t₁ = interchangeSeed t₂ := by
  simp [carbonSeed, generationSeed, demandSeed, interchangeSeed, hd, hm]

/-- Witness for C3: midnight and 1 a.m. of 1970-01-01 share all four seeds. -/
theorem claim_C3_witness :
    carbonSeed 0 = carbonSeed 3600000 ∧ generationSeed 0 = generationSeed 3600000 ∧
    demandSeed 0 = demandSeed 3600000 ∧ interchangeSeed 0 = interchangeSeed 3600000 :=
  claim_C3 0 3600000 (by decide) (by decide)

/-- Counterexample to C3 as stated: two instants on the same calendar day but
one hour apart produce different carbon series — already their slot timestamps
differ — so the simulated output does not depend only on the calendar day. -/
theorem claim_C3_cex : ¬ (∀ (rexp : ℚ → ℚ) (t₁ t₂ : ℤ),
    getDate t₁ = getDate t₂ → getMonth t₁ = getMonth t₂ →
    generateCarbonSignal rexp t₁ = generateCarbonSignal rexp t₂ ∧
    generateGenerationMix rexp t₁ = generateGenerationMix rexp t₂ ∧
    generateDemandData rexp t₁ = generateDemandData rexp t₂ ∧
    generateInterchangeData rexp t₁ = generateInterchangeData rexp t₂) := by
  intro h
  obtain ⟨hc, -, -, -⟩ := h (fun _ => 0) 0 3600000 (by decide) (by decide)
  have h2 : (List.range TOTAL_POINTS).map (tsAt 0)
      = (List.range TOTAL_POINTS).map (tsAt 3600000) := by
    rw [← map_ts_generateCarbonSignal (fun _ => 0) 0,
      ← map_ts_generateCarbonSignal (fun _ => 0) 3600000, hc]
  have h3 := congrArg (fun l => l[0]?) h2
  simp only [List.getElem?_map,
    List.getElem?_range (by norm_num [TOTAL_POINTS] : 0 < TOTAL_POINTS),
    Option.map_some', Option.some.injEq, tsAt] at h3
  omega

/-- C8, amended: the mapped timestamp sequence of a series being
`Pairwise (· < ·)` says exactly "sorted ascending with no duplicate
timestamps".  This holds for all four simulated series, for the three pivoted
live series (generation, demand, interchange), and for the live carbon series
when the intensity response has at most one point (it is then padded over the
generation timestamps).  A carbon response with more than one point is passed
through in upstream order, where the property can fail (see counterexample). -/
theorem claim_C8 :
    (∀ (rexp : ℚ → ℚ) (now : ℤ),
        ((generateCarbonSignal rexp now).map (fun p => p.timestamp)).Pairwise (· < ·) ∧
        ((generateGenerationMix rexp now).map (fun p => p.timestamp)).Pairwise (· < ·) ∧
        ((generateDemandData rexp now).map (fun p => p.timestamp)).Pairwise (· < ·) ∧
        ((generateInterchangeData rexp now).map (fun p => p.timestamp)).Pairwise (· < ·)) ∧
    (∀ (τ : Type) [LinearOrder τ] (rows : List (EIARow τ)),
        ((fetchGeneration rows).map (fun p => p.timestamp)).Pairwise (· < ·) ∧
        ((fetchDemand rows).map (fun p => p.timestamp)).Pairwise (· < ·) ∧
        ((fetchInterchange rows).map (fun p => p.timestamp)).Pairwise (· < ·)) ∧
    (∀ (τ : Type) [LinearOrder τ] (nowTs emptyTs : τ) (crows : List (WTRow τ))
        (grows drows irows : List (EIARow τ)),
        crows.length ≤ 1 →
        ((assembleSnapshot nowTs emptyTs (fetchCarbonSignal crows) (fetchGeneration grows)
            (fetchDemand drows)
            (fetchInterchange irows)).timeSeries.carbon.map (fun p => p.timestamp)).Pairwise
          (· < ·)) := by
  refine ⟨?_, ?_, ?_⟩
  · intro rexp now
    refine ⟨?_, ?_, ?_, ?_⟩
    · rw [map_ts_generateCarbonSignal]
      exact pairwise_lt_map_tsAt now
    · rw [map_ts_generateGenerationMix]
      exact pairwise_lt_map_tsAt now
    · rw [map_ts_generateDemandData]
      exact pairwise_lt_map_tsAt now
    · rw [map_ts_generateInterchangeData]
      exact pairwise_lt_map_tsAt now
  · intro τ _ rows
    exact ⟨pairwise_ts_fetchGeneration rows, pairwise_ts_fetchDemand rows,
      pairwise_ts_fetchInterchange rows⟩
  · intro τ _ nowTs emptyTs crows grows drows irows hlen
    have hlen' : ¬ 1 < (fetchCarbonSignal crows).length := by
      rw [fetchCarbonSignal, List.length_map]
      omega
    simp only [assembleSnapshot, if_neg hlen']
    rw [List.map_map]
    show ((fetchGeneration grows).map (fun p => p.timestamp)).Pairwise (· < ·)
    exact pairwise_ts_fetchGeneration grows

/-- Witness for C8 at concrete inputs (empty intensity response, so the padded
branch is exercised). -/
theorem claim_C8_witness :
    ((assembleSnapshot (0 : ℤ) 0 (fetchCarbonSignal []) (fetchGeneration [])
        (fetchDemand [])
        (fetchInterchange [])).timeSeries.carbon.map (fun p => p.timestamp)).Pairwise
      (· < ·) :=
  claim_C8.2.2 ℤ 0 0 [] [] [] [] (by simp [fetchCarbonSignal])

/-- Counterexample to C8 as stated: a live intensity response with two points
in descending timestamp order is passed through verbatim (no sort, no dedup),
so the assembled carbon series is not sorted ascending. -/
theorem claim_C8_cex : ¬ ((∀ (rexp : ℚ → ℚ) (now : ℤ),
      ((generateCarbonSignal rexp now).map (fun p => p.timestamp)).Pairwise (· < ·)) ∧
    (∀ (τ : Type) [LinearOrder τ] (nowTs emptyTs : τ)
        (cr : Except String (List (WTRow τ))) (gr dr ir : Except String (List (EIARow τ)))
        (s : GridSnapshot τ),
        fetchLiveDataE nowTs emptyTs cr gr dr ir = .ok s →
        (s.timeSeries.carbon.map (fun p => p.timestamp)).Pairwise (· < ·))) := by
  intro h
  have h2 := h.2 ℤ 0 0 (.ok [⟨5, 1⟩, ⟨3, 2⟩]) (.ok []) (.ok []) (.ok [])
    (assembleSnapshot 0 0 (fetchCarbonSignal [⟨5, 1⟩, ⟨3, 2⟩]) (fetchGeneration [])
      (fetchDemand []) (fetchInterchange [])) rfl
  simp [assembleSnapshot, fetchCarbonSignal] at h2

/-- C1, amended: for every `InterchangePoint` produced by the live interchange
pivot, `netExport` equals the sum of all raw per-neighbor values parsed for
that timestamp — including neighbors beyond the 8 kept in `flows`, whose
length is capped at 8 — so truncating `flows` never changes `netExport`.  The
simulation engine does not maintain this: its `netExport` is generated
independently of the per-neighbor flow values (see counterexample), so the
invariant holds for the live pivot only. -/
theorem claim_C1 {τ : Type} [LinearOrder τ] (rows : List (EIARow τ)) :
    ∀ p ∈ fetchInterchange rows,
      p.netExport = sumAt rows p.timestamp ∧ p.flows.length ≤ 8 :=
  netExport_fetchInterchange rows

/-- Witness for C1: two rows sharing a timestamp with different neighbors. -/
theorem claim_C1_witness :
    ((fetchInterchange [⟨(1 : ℤ), some 5, "", "", "AZPS"⟩, ⟨1, some 7, "", "", "CAISO"⟩]).headD
        ⟨0, 0, []⟩).netExport
      = sumAt [⟨(1 : ℤ), some 5, "", "", "AZPS"⟩, ⟨1, some 7, "", "", "CAISO"⟩]
          ((fetchInterchange [⟨(1 : ℤ), some 5, "", "", "AZPS"⟩,
              ⟨1, some 7, "", "", "CAISO"⟩]).headD ⟨0, 0, []⟩).timestamp ∧
    ((fetchInterchange [⟨(1 : ℤ), some 5, "", "", "AZPS"⟩, ⟨1, some 7, "", "", "CAISO"⟩]).headD
        ⟨0, 0, []⟩).flows.length ≤ 8 :=
  claim_C1 [⟨(1 : ℤ), some 5, "", "", "AZPS"⟩, ⟨1, some 7, "", "", "CAISO"⟩] _ (by decide)

/-- Counterexample to C1 as stated: in the simulation engine `netExport` is not
the sum of the per-neighbor flow values.  At the instant 0 (1970-01-01, seed
4001) with any exponential stub equal to 1, slot 0 has `netExport = 659` while
its five flows sum to 470. -/
theorem claim_C1_cex : ¬ (∀ (rexp : ℚ → ℚ) (now : ℤ),
    ∀ p ∈ generateInterchangeData rexp now,
      p.netExport = (p.flows.map (fun f => f.value)).sum) := by
  intro h
  have hp := h (fun _ => 1) 0 (interchangePointAt (fun _ => 1) 0 0)
    (by
      unfold generateInterchangeData
      exact List.mem_map_of_mem _ (List.mem_range.mpr (by norm_num [TOTAL_POINTS])))
  have hseed : interchangeSeed 0 = 4001 := by decide
  have hhf : ∀ hr p s : ℚ, hourFactor (fun _ => 1) hr p s = 1 := fun _ _ _ => rfl
  have hrange : List.range 5 = [0, 1, 2, 3, 4] := by decide
  have e1 : lcgIter 1 4001 = 67244807 := by decide
  have e2 : lcgIter 2 4001 = 607072927 := by decide
  have e3 : lcgIter 3 4001 = 379877192 := by decide
  have e4 : lcgIter 4 4001 = 127083413 := by decide
  have e5 : lcgIter 5 4001 = 1292177173 := by decide
  have e6 : lcgIter 6 4001 = 119624500 := by decide
  have e7 : lcgIter 7 4001 = 484277908 := by decide
  have e8 : lcgIter 8 4001 = 295777626 := by decide
  have e9 : lcgIter 9 4001 = 1857401024 := by decide
  have e10 : lcgIter 10 4001 = 1516717576 := by decide
  have e11 : lcgIter 11 4001 = 841409942 := by decide
  simp only [interchangePointAt, interchangeRegions, hseed, hhf, rngAt, List.length_cons,
    List.length_nil, hrange, List.map_cons, List.map_nil, List.sum_cons, List.sum_nil] at hp
  norm_num [e1, e2, e3, e4, e5, e6, e7, e8, e9, e10, e11, jround] at hp

end PGE
